import Mathlib

/-!
Verification development for the EEA TenderEvaluation repository.

The frontend (React/TypeScript in `src/`) is embedded directly from its
source.  The backend OCR/extraction engine (`service/ocr_utils.py`,
`service/main.py`, `service/models.py`) is referenced by the repository's
documentation but its Python sources are not part of the checked tree, so
those components are modelled from the specification's contracts; each such
definition carries a doc comment saying so.
-/

namespace TenderEval

/-- Cache key for OCR results.  Modelled from the spec: `get_page_hash`
returns a deterministic SHA-256 digest of the file path and page number
(`service/ocr_utils.py` is not in the tree).  The digest is modelled as the
injective pairing of path and page number, matching the spec's assumption
that the cryptographic digest is collision-free. -/
structure PageHash where
  source_path : String
  page_number : Nat
deriving DecidableEq, Repr

/-- Modelled from the spec: `get_page_hash(path, page_num)` derives a stable
cache key from file identity and page number; deterministic, no side
effects. -/
def get_page_hash (path : String) (page_num : Nat) : PageHash :=
  ⟨path, page_num⟩

/-- Modelled from the spec: a persisted `PDFOCRCache` row:
page_hash (unique), source path, page number, extracted text, model used. -/
structure CacheEntry where
  page_hash : PageHash
  pdf_path : String
  page_num : Nat
  extracted_text : String
  model_used : String
deriving DecidableEq, Repr

/-- The persistent OCR cache, modelled as the ordered list of rows ever
inserted. -/
abbrev OCRCache := List CacheEntry

/-- Modelled from the spec: `lookup(hash)` returns the entry stored under
`hash`, or `none` when absent. -/
def lookup : OCRCache → PageHash → Option CacheEntry
  | [], _ => none
  | e :: rest, h => if e.page_hash = h then some e else lookup rest h

/-- Modelled from the spec: `store(entry)` is insert-only; when an entry for
the same hash already exists the store is a no-op rather than an
overwrite. -/
def store (c : OCRCache) (e : CacheEntry) : OCRCache :=
  match lookup c e.page_hash with
  | some _ => c
  | none => c ++ [e]

/-- Strips leading and trailing whitespace from a character list (the
whitespace normalization applied before counting characters). -/
def trimChars (s : List Char) : List Char :=
  ((s.dropWhile Char.isWhitespace).reverse.dropWhile Char.isWhitespace).reverse

/-- Character count of a text after whitespace normalization. -/
def normalizedLength (s : String) : Nat :=
  (trimChars s.data).length

/-- Modelled from the spec: `is_scanned_pdf` classifies a page as scanned
exactly when the native-text character count, after whitespace
normalization, is below the fixed threshold of 50 characters.  Pure and
total; the empty string is a valid input classified as scanned. -/
def is_scanned_pdf (raw_text : String) : Bool :=
  normalizedLength raw_text < 50

/-- Modelled from the spec: the typed failure outcomes of the OCR engine.
`OCRUnavailable` means no vision provider is configured;
`OCRTranscriptionFailed` means the provider call errored or returned empty
output. -/
inductive OCRErr where
  | OCRUnavailable
  | OCRTranscriptionFailed
deriving DecidableEq, Repr

/-- Modelled from the spec: the engine's external collaborators — per-page
native text extraction, the vision model transcription capability (`none`
models a provider-side error), and the provider configuration flag.  The
environment is fixed for the lifetime of a deployment. -/
structure ExtractorEnv where
  nativeText : String → Nat → String
  transcribe : String → Nat → Option String
  provider_configured : Bool
  model_used : String

/-- Modelled from the spec: `llm_ocr_page` invokes the vision model on a
rendered page.  It fails with `OCRUnavailable` (making no billed call) when
no provider is configured, and with `OCRTranscriptionFailed` when the
provider errors or returns empty output.  The second component counts
billed vision API invocations performed by this call. -/
def llm_ocr_page (env : ExtractorEnv) (path : String) (page : Nat) :
    Except OCRErr String × Nat :=
  if env.provider_configured then
    match env.transcribe path page with
    | some t => (if t = "" then .error .OCRTranscriptionFailed else .ok t, 1)
    | none => (.error .OCRTranscriptionFailed, 1)
  else
    (.error .OCRUnavailable, 0)

/-- Result of one per-page hybrid extraction: the outcome, the cache state
after the call, and the number of vision API invocations it performed. -/
structure StepResult where
  result : Except OCRErr String
  cache : OCRCache
  ocr_calls : Nat
deriving Repr

/-- Modelled from the spec: `extract_text_hybrid` per-page algorithm.
Native text is extracted and classified; native pages are returned directly
with no cache interaction.  Scanned pages are resolved through the cache:
a hit returns the cached text with no API call; a miss performs OCR and, on
success only, stores the result keyed by the page hash. -/
def extract_text_hybrid (env : ExtractorEnv) (cache : OCRCache)
    (path : String) (page : Nat) : StepResult :=
  let native := env.nativeText path page
  if is_scanned_pdf native then
    let h := get_page_hash path page
    match lookup cache h with
    | some e => ⟨.ok e.extracted_text, cache, 0⟩
    | none =>
      match llm_ocr_page env path page with
      | (.ok t, n) => ⟨.ok t, store cache ⟨h, path, page, t, env.model_used⟩, n⟩
      | (.error e, n) => ⟨.error e, cache, n⟩
  else
    ⟨.ok native, cache, 0⟩

/-- Runs a sequence of extraction requests against the persistent cache,
threading the cache through; requests are (path, page) pairs.  Process
restarts are invisible here because the cache is the only persistent
state. -/
def runTrace (env : ExtractorEnv) : OCRCache → List (String × Nat) → OCRCache
  | c, [] => c
  | c, r :: rs => runTrace env (extract_text_hybrid env c r.1 r.2).cache rs

/-- Modelled from the spec: per-question search configuration — header
label, auto-increment flag and question number — supplied by the caller and
governing `SectionLocator`'s pattern construction. -/
structure SearchSpec where
  header_label : String
  auto_increment : Bool
  question_number : String
deriving Repr

/-- Modelled from the spec: the engine's output — the extracted paragraph
and the page where its header was found. -/
structure ExtractedAnswer where
  paragraph_text : String
  source_page : Nat
deriving DecidableEq, Repr

/-- Lower-cases a character list (used for case-insensitive matching). -/
def lowerL (s : List Char) : List Char := s.map Char.toLower

/-- Modelled from the spec: the case-insensitive header patterns built from
`header_label` and, when `auto_increment` is true, from `question_number` —
both orderings are attempted: "label number" and "number. label". -/
def headerPatterns (spec : SearchSpec) : List (List Char) :=
  let label := lowerL spec.header_label.data
  if spec.auto_increment then
    let num := lowerL spec.question_number.data
    [label ++ (' ' :: num), num ++ ('.' :: ' ' :: label)]
  else
    [label]

/-- Tries each pattern at the head of `s`; returns the length of the first
matching pattern. -/
def matchAt (pats : List (List Char)) (s : List Char) : Option Nat :=
  pats.findSome? fun p => if p.isPrefixOf s then some p.length else none

/-- Scans `s` left to right for the first position where one of the
patterns occurs; returns the position together with the matched length. -/
def findPat (pats : List (List Char)) : List Char → Option (Nat × Nat)
  | [] =>
      match matchAt pats [] with
      | some k => some (0, k)
      | none => none
  | c :: rest =>
      match matchAt pats (c :: rest) with
      | some k => some (0, k)
      | none => (findPat pats rest).map fun ik => (ik.1 + 1, ik.2)

/-- True when the page text contains an occurrence of one of the spec's
header patterns (case-insensitive). -/
def headerMatch (spec : SearchSpec) (s : String) : Bool :=
  (findPat (headerPatterns spec) (lowerL s.data)).isSome

/-- Joins page texts with newlines into one character stream. -/
def joinPages : List String → List Char
  | [] => []
  | [p] => p.data
  | p :: rest => p.data ++ '\n' :: joinPages rest

/-- Modelled from the spec: once the header has matched on a page at offset
`i` with length `k`, the paragraph is the text immediately after the match,
extended across the remaining pages, and ends at the next occurrence of the
recognized header family (the label itself, case-insensitive) or at the end
of the range; the result is trimmed. -/
def paragraphAfter (label : List Char) (page : List Char) (i k : Nat)
    (restPages : List String) : String :=
  let tail := page.drop (i + k) ++ '\n' :: joinPages restPages
  let body :=
    match findPat [label] (lowerL tail) with
    | some jk => tail.take jk.1
    | none => tail
  String.mk (trimChars body)

/-- Worker for `locate`: scans pages in ascending order, returning the
paragraph after the first header match together with its 1-based source
page, or `none` when no page in the range matches. -/
def locateGo (pats : List (List Char)) (label : List Char) :
    List String → Nat → Option ExtractedAnswer
  | [], _ => none
  | p :: rest, idx =>
      match findPat pats (lowerL p.data) with
      | some ik => some ⟨paragraphAfter label p.data ik.1 ik.2 rest, idx⟩
      | none => locateGo pats label rest (idx + 1)

/-- Modelled from the spec: `SectionLocator.locate` — builds the
case-insensitive patterns, scans pages in ascending order for the first
header occurrence, and extracts the bounded paragraph; returns `none`
(`NotFound`) when no page in the requested range matches, never an
exception. -/
def locate (pages : List String) (spec : SearchSpec) : Option ExtractedAnswer :=
  locateGo (headerPatterns spec) (lowerL spec.header_label.data) pages 1

/-- Row shape of the stored applicant answer returned by the
`/applicant-answer/{id}/{qId}` endpoint (`src/src/App.tsx`). -/
structure AnswerRow where
  answer_text : String
deriving DecidableEq, Repr

/-- Response of the stored-answer lookup in `fetchCriterionAnswer`
(`src/src/App.tsx`): HTTP ok flag and the optional `answer` payload. -/
structure DbLookupResponse where
  ok : Bool
  answer : Option AnswerRow
deriving Repr

/-- Response of the POST `/extract-answer` endpoint as consumed by
`fetchCriterionAnswer` (`src/src/App.tsx`): HTTP ok flag, the error
`detail` on failure, and the optional `paragraph` on success. -/
structure ExtractResponse where
  ok : Bool
  detail : Option String
  paragraph : Option String
deriving Repr

/-- Observable outcome of one `fetchCriterionAnswer` run: the final
`evaluateAnswer` and `evaluateExtractError` state, and whether a POST to
`/extract-answer` and a save of a new answer (source "extracted") were
issued. -/
structure FetchOutcome where
  evaluateAnswer : String
  evaluateExtractError : String
  extractPosted : Bool
  savePosted : Bool
deriving DecidableEq, Repr

/-- JavaScript `x || d` on an optional string: the default replaces both an
absent and an empty string. -/
def jsOr (o : Option String) (d : String) : String :=
  match o with
  | some s => if s = "" then d else s
  | none => d

/-- The stored answer recognized by `fetchCriterionAnswer`'s short-circuit
check `dbResponse.ok && dbData.answer && dbData.answer.answer_text`
(`src/src/App.tsx`, lines 431-440): the lookup response must be ok and
carry an answer object with truthy (non-empty) `answer_text`. -/
def storedAnswer (db : DbLookupResponse) : Option String :=
  if db.ok then
    match db.answer with
    | some a => if a.answer_text = "" then none else some a.answer_text
    | none => none
  else
    none

/-- Embedding of `fetchCriterionAnswer` (`src/src/App.tsx`, lines 426-482)
as a function of the two network responses it consumes.  A stored answer
short-circuits; otherwise the extract endpoint is hit and, on a truthy
paragraph, the answer is saved with source "extracted"; a successful
response without a paragraph produces the fixed not-found message, and a
non-ok response surfaces the server's error detail. -/
def fetchCriterionAnswer (db : DbLookupResponse) (ext : ExtractResponse) :
    FetchOutcome :=
  match storedAnswer db with
  | some t => ⟨t, "", false, false⟩
  | none =>
      if ext.ok then
        match ext.paragraph with
        | some p =>
            if p = "" then ⟨"", "No matching section found in PDF.", true, false⟩
            else ⟨p, "", true, true⟩
        | none => ⟨"", "No matching section found in PDF.", true, false⟩
      else
        ⟨"", jsOr ext.detail "Failed to extract answer", true, false⟩

/-- The evaluate request status of `App` (`src/src/App.tsx`). -/
inductive EvalStatus where
  | idle
  | loading
deriving DecidableEq, Repr

/-- The slice of `App` state governing the evaluate modal
(`src/src/App.tsx`). -/
structure AppState where
  isEvaluateOpen : Bool
  evaluateStatus : EvalStatus
deriving DecidableEq, Repr

/-- Embedding of `handleCloseEvaluate` (`src/src/App.tsx`, lines 514-519):
returns unchanged while an evaluation is loading, otherwise closes the
modal. -/
def handleCloseEvaluate (s : AppState) : AppState :=
  if s.evaluateStatus = EvalStatus.loading then s
  else { s with isEvaluateOpen := false }

/-- Disabled state of the modal's Cancel button
(`src/src/components/EvaluateModal.tsx`): `disabled` exactly while
`evaluateStatus` is loading. -/
def cancelButtonDisabled (s : AppState) : Bool :=
  s.evaluateStatus = EvalStatus.loading

/-- Disabled state of the modal's Run assessment button
(`src/src/components/EvaluateModal.tsx`): `disabled` exactly while
`evaluateStatus` is loading. -/
def runButtonDisabled (s : AppState) : Bool :=
  s.evaluateStatus = EvalStatus.loading

/-- The fields of an assessment result used by `ReviewPanel`
(`src/src/types.ts`, `src/src/components/ReviewPanel.tsx`). -/
structure AssessmentResult where
  q_id : String
  question_text : String
  answer_text : String
  score : Option Int
deriving DecidableEq, Repr

/-- First maximal run of decimal digits in a character list, mirroring the
JavaScript regular expression match for one-or-more digits in
`ReviewPanel`. -/
def firstDigitRun : List Char → Option (List Char)
  | [] => none
  | c :: rest =>
      if c.isDigit then some (c :: rest.takeWhile Char.isDigit)
      else firstDigitRun rest

/-- Exact mathematical value of a digit run (the ECMAScript "mathematical
value" of the decimal literal, before any floating-point rounding; the
rounding performed by the `Number()` conversion is applied separately by
`jsNumberOfNat`). -/
def digitsToNat (ds : List Char) : Nat :=
  ds.foldl (fun acc c => acc * 10 + (c.toNat - 48)) 0

/-- First numeric substring of a string as an exact natural number, or
`none` when the string contains no digit. -/
def firstNumber (s : String) : Option Nat :=
  (firstDigitRun s.data).map digitsToNat

/-- JavaScript `Number.MAX_SAFE_INTEGER`, the sentinel used by
`ReviewPanel`'s comparator for q_ids without digits. -/
def MAX_SAFE_INTEGER : Nat := 9007199254740991

/-- Floor of the base-2 logarithm, driven by explicit fuel so that it
evaluates by kernel reduction; `1100` units of fuel cover every value below
`2 ^ 1024`, the only range `jsNumberOfNat` uses it on. -/
def log2Fuel : Nat → Nat → Nat
  | 0, _ => 0
  | fuel + 1, v => if v ≥ 2 then log2Fuel fuel (v / 2) + 1 else 0

/-- The ECMAScript `Number()` conversion on a non-negative integer: the
exact value is rounded to the nearest IEEE-754 double (53-bit significand,
ties to even).  Values below `2 ^ 53` are exact; larger values are rounded
to a multiple of their binade's unit in the last place; values that round
to `2 ^ 1024` or beyond overflow to positive infinity, returned as `none`.
Every `some` result is below `2 ^ 1024`, so `none` can be represented by
any value at or above that bound when a totally ordered key is needed. -/
def jsNumberOfNat (v : Nat) : Option Nat :=
  if v < 2 ^ 53 then some v
  else if 2 ^ 1024 ≤ v then none
  else
    let e := log2Fuel 1100 v
    let ulp := 2 ^ (e - 52)
    let q := v / ulp
    let r := v % ulp
    let q2 :=
      if 2 * r < ulp then q
      else if ulp < 2 * r then q + 1
      else if q % 2 = 0 then q else q + 1
    let rounded := q2 * ulp
    if rounded < 2 ^ 1024 then some rounded else none

/-- Sort key of `ReviewPanel`'s comparator
(`src/src/components/ReviewPanel.tsx`, lines 60-67): the JavaScript
`Number()` of the first numeric substring of `q_id` — an IEEE-754 double,
so digit runs above `2 ^ 53` are rounded — or `Number.MAX_SAFE_INTEGER`
when there is no digit.  A conversion overflowing to infinity is
represented by the supremal sentinel `2 ^ 1024`, which exceeds every finite
double value and equals no finite key, so order and equality of keys match
the program's. -/
def sortKey (a : AssessmentResult) : Nat :=
  match firstNumber a.q_id with
  | some v => (jsNumberOfNat v).getD (2 ^ 1024)
  | none => MAX_SAFE_INTEGER

/-- Lexicographic at-most comparison of character lists by code point,
modelling the string comparison used for ties (`localeCompare` in
`ReviewPanel`, modelled as ordinal lexicographic order). -/
def lexLe : List Char → List Char → Bool
  | [], _ => true
  | _ :: _, [] => false
  | a :: as, b :: bs =>
      if a.toNat < b.toNat then true
      else if b.toNat < a.toNat then false
      else lexLe as bs

theorem lexLe_total (a b : List Char) : lexLe a b = true ∨ lexLe b a = true := by
  induction a generalizing b with
  | nil => exact Or.inl rfl
  | cons x xs ih =>
      cases b with
      | nil => exact Or.inr rfl
      | cons y ys =>
          by_cases hxy : x.toNat < y.toNat
          · exact Or.inl (by simp [lexLe, hxy])
          · by_cases hyx : y.toNat < x.toNat
            · exact Or.inr (by simp [lexLe, hyx])
            · rcases ih ys with h | h
              · exact Or.inl (by simp [lexLe, hxy, hyx, h])
              · exact Or.inr (by simp [lexLe, hxy, hyx, h])

theorem lexLe_trans (a b c : List Char) (hab : lexLe a b = true)
    (hbc : lexLe b c = true) : lexLe a c = true := by
  induction a generalizing b c with
  | nil => rfl
  | cons x xs ih =>
      cases b with
      | nil => simp [lexLe] at hab
      | cons y ys =>
          cases c with
          | nil => simp [lexLe] at hbc
          | cons z zs =>
              simp only [lexLe] at hab hbc ⊢
              by_cases hxy : x.toNat < y.toNat
              · by_cases hyz : y.toNat < z.toNat
                · simp [show x.toNat < z.toNat by omega]
                · by_cases hzy : z.toNat < y.toNat
                  · simp [hyz, hzy] at hbc
                  · simp [show x.toNat < z.toNat by omega]
              · by_cases hyx : y.toNat < x.toNat
                · simp [hxy, hyx] at hab
                · by_cases hyz : y.toNat < z.toNat
                  · simp [show x.toNat < z.toNat by omega]
                  · by_cases hzy : z.toNat < y.toNat
                    · simp [hyz, hzy] at hbc
                    · have hxz : ¬ x.toNat < z.toNat := by omega
                      have hzx : ¬ z.toNat < x.toNat := by omega
                      simp only [if_neg hxz, if_neg hzx]
                      simp only [if_neg hxy, if_neg hyx] at hab
                      simp only [if_neg hyz, if_neg hzy] at hbc
                      exact ih ys zs hab hbc

/-- Weak order realized by `ReviewPanel`'s comparator: ascending sort key,
ties broken by comparison of the full `q_id`. -/
def resultOrder (a b : AssessmentResult) : Prop :=
  sortKey a < sortKey b ∨
    (sortKey a = sortKey b ∧ lexLe a.q_id.data b.q_id.data = true)

instance : DecidableRel resultOrder := by
  unfold resultOrder
  intro a b
  infer_instance

instance : IsTotal AssessmentResult resultOrder where
  total a b := by
    unfold resultOrder
    rcases lt_trichotomy (sortKey a) (sortKey b) with h | h | h
    · exact Or.inl (Or.inl h)
    · rcases lexLe_total a.q_id.data b.q_id.data with hq | hq
      · exact Or.inl (Or.inr ⟨h, hq⟩)
      · exact Or.inr (Or.inr ⟨h.symm, hq⟩)
    · exact Or.inr (Or.inl h)

instance : IsTrans AssessmentResult resultOrder where
  trans a b c hab hbc := by
    unfold resultOrder at *
    rcases hab with hab | ⟨hab, haq⟩
    · rcases hbc with hbc | ⟨hbc, _⟩
      · exact Or.inl (hab.trans hbc)
      · exact Or.inl (hbc ▸ hab)
    · rcases hbc with hbc | ⟨hbc, hbq⟩
      · exact Or.inl (hab ▸ hbc)
      · exact Or.inr ⟨hab.trans hbc, lexLe_trans _ _ _ haq hbq⟩

/-- Embedding of `ReviewPanel`'s sidebar list construction
(`src/src/components/ReviewPanel.tsx`, lines 59-67): a copy of the results
sorted by the comparator; the input list is left untouched. -/
def sortedResults (rs : List AssessmentResult) : List AssessmentResult :=
  List.insertionSort resultOrder rs

-- Basic cache lemmas shared by several claims.

theorem lookup_append_right (c : OCRCache) (e : CacheEntry) (h : PageHash)
    (hnone : lookup c h = none) (hh : e.page_hash = h) :
    lookup (c ++ [e]) h = some e := by
  induction c with
  | nil => simp [lookup, hh]
  | cons a rest ih =>
      simp only [lookup] at hnone ⊢
      by_cases hha : a.page_hash = h
      · simp [hha] at hnone
      · simp only [List.cons_append, lookup, if_neg hha] at *
        exact ih hnone

theorem lookup_append_left (c l : OCRCache) (x : CacheEntry) (h : PageHash)
    (hx : lookup c h = some x) : lookup (c ++ l) h = some x := by
  induction c with
  | nil => simp [lookup] at hx
  | cons a rest ih =>
      simp only [lookup] at hx
      by_cases hha : a.page_hash = h
      · simp only [if_pos hha] at hx
        simp [List.cons_append, lookup, if_pos hha, hx]
      · simp only [if_neg hha] at hx
        simp only [List.cons_append, lookup, if_neg hha]
        exact ih hx

theorem lookup_store_of_some (c : OCRCache) (e x : CacheEntry) (h : PageHash)
    (hx : lookup c h = some x) : lookup (store c e) h = some x := by
  unfold store
  cases hl : lookup c e.page_hash with
  | some _ => exact hx
  | none => exact lookup_append_left c [e] x h hx

theorem lookup_store_self (c : OCRCache) (e : CacheEntry)
    (hnone : lookup c e.page_hash = none) :
    lookup (store c e) e.page_hash = some e := by
  unfold store
  rw [hnone]
  exact lookup_append_right c e e.page_hash hnone rfl

theorem lookup_extract_of_some (env : ExtractorEnv) (c : OCRCache)
    (p : String) (n : Nat) (x : CacheEntry) (h : PageHash)
    (hx : lookup c h = some x) :
    lookup (extract_text_hybrid env c p n).cache h = some x := by
  unfold extract_text_hybrid
  by_cases hs : is_scanned_pdf (env.nativeText p n)
  · simp only [if_pos hs]
    cases hl : lookup c (get_page_hash p n) with
    | some e => exact hx
    | none =>
        cases ho : llm_ocr_page env p n with
        | mk r k =>
            cases r with
            | ok t => exact lookup_store_of_some c _ x h hx
            | error e => exact hx
  · simp only [if_neg hs]
    exact hx

theorem lookup_runTrace_of_some (env : ExtractorEnv) (c : OCRCache)
    (rs : List (String × Nat)) (x : CacheEntry) (h : PageHash)
    (hx : lookup c h = some x) :
    lookup (runTrace env c rs) h = some x := by
  induction rs generalizing c with
  | nil => simpa [runTrace] using hx
  | cons r rest ih =>
      simp only [runTrace]
      exact ih _ (lookup_extract_of_some env c r.1 r.2 x h hx)

/-- C2: `OCRCache.store` is insert-only and idempotent: for every cache
state and every two entries with the same hash, storing the second after
the first is a no-op, and the first-stored extracted text is retained —
lookup after both stores returns the first entry, never an overwrite. -/
theorem store_insert_only_idempotent (c : OCRCache) (e1 e2 : CacheEntry)
    (hh : e1.page_hash = e2.page_hash) :
    store (store c e1) e2 = store c e1 ∧
    (lookup c e1.page_hash = none →
      lookup (store (store c e1) e2) e1.page_hash = some e1) := by
  have hnoop : store (store c e1) e2 = store c e1 := by
    cases hl : lookup c e1.page_hash with
    | some x =>
        have h1 : store c e1 = c := by unfold store; rw [hl]
        rw [h1]
        unfold store
        rw [← hh, hl]
    | none =>
        have h1 : store c e1 = c ++ [e1] := by unfold store; rw [hl]
        have h2 : lookup (c ++ [e1]) e2.page_hash = some e1 := by
          rw [← hh]
          exact lookup_append_right c e1 e1.page_hash hl rfl
        rw [h1]
        unfold store
        rw [h2]
  refine ⟨hnoop, fun hnone => ?_⟩
  rw [hnoop]
  exact lookup_store_self c e1 hnone

/-- C2 witness: storing a second text under an existing hash is a no-op and
the first text is retained. -/
theorem store_insert_only_idempotent_witness :
    store (store [] ⟨⟨"a.pdf", 1⟩, "a.pdf", 1, "first", "gpt-4o"⟩)
        ⟨⟨"a.pdf", 1⟩, "a.pdf", 1, "second", "gpt-4o"⟩ =
      store [] ⟨⟨"a.pdf", 1⟩, "a.pdf", 1, "first", "gpt-4o"⟩ ∧
    lookup
        (store (store [] ⟨⟨"a.pdf", 1⟩, "a.pdf", 1, "first", "gpt-4o"⟩)
          ⟨⟨"a.pdf", 1⟩, "a.pdf", 1, "second", "gpt-4o"⟩)
        (⟨"a.pdf", 1⟩ : PageHash) =
      some ⟨⟨"a.pdf", 1⟩, "a.pdf", 1, "first", "gpt-4o"⟩ := by
  have h := store_insert_only_idempotent []
    ⟨⟨"a.pdf", 1⟩, "a.pdf", 1, "first", "gpt-4o"⟩
    ⟨⟨"a.pdf", 1⟩, "a.pdf", 1, "second", "gpt-4o"⟩ rfl
  exact ⟨h.1, h.2 rfl⟩

/-- C4: `ScanDetector.classify` (`is_scanned_pdf`) is a pure total function
with no error outcome: a page is scanned exactly when its character count
after whitespace normalization is below 50, and the empty string is
classified scanned. -/
theorem scan_detector_classify (text : String) :
    (is_scanned_pdf text = true ↔ normalizedLength text < 50) ∧
    is_scanned_pdf "" = true := by
  constructor
  · simp [is_scanned_pdf]
  · decide

/-- C7: `PageHasher.hash` is deterministic — repeated calls on the same
(path, page) agree — and discriminating: different page numbers for the
same path yield different hashes, with no side effects. -/
theorem page_hash_deterministic_discriminating (path : String) (n m : Nat) :
    get_page_hash path n = get_page_hash path n ∧
    (n ≠ m → get_page_hash path n ≠ get_page_hash path m) := by
  refine ⟨rfl, fun hnm heq => hnm ?_⟩
  exact congrArg PageHash.page_number heq

/-- C7 witness: concrete determinism and discrimination for pages 1 and 2
of the same document. -/
theorem page_hash_deterministic_discriminating_witness :
    get_page_hash "doc.pdf" 1 = get_page_hash "doc.pdf" 1 ∧
    get_page_hash "doc.pdf" 1 ≠ get_page_hash "doc.pdf" 2 :=
  ⟨(page_hash_deterministic_discriminating "doc.pdf" 1 2).1,
   (page_hash_deterministic_discriminating "doc.pdf" 1 2).2 (by decide)⟩

/-- C9: while an evaluation request is in flight, the evaluate modal cannot
be dismissed: `handleCloseEvaluate` leaves the state (and in particular
`isEvaluateOpen`) unchanged, and the modal's Cancel and Run buttons are
disabled. -/
theorem modal_locked_while_loading (s : AppState)
    (h : s.evaluateStatus = EvalStatus.loading) :
    handleCloseEvaluate s = s ∧
    (handleCloseEvaluate s).isEvaluateOpen = s.isEvaluateOpen ∧
    cancelButtonDisabled s = true ∧
    runButtonDisabled s = true := by
  have hclose : handleCloseEvaluate s = s := by
    unfold handleCloseEvaluate
    rw [if_pos h]
  exact ⟨hclose, by rw [hclose], by simp [cancelButtonDisabled, h],
    by simp [runButtonDisabled, h]⟩

/-- C9 witness: the open modal stays open and both buttons are disabled in
the loading state. -/
theorem modal_locked_while_loading_witness :
    handleCloseEvaluate ⟨true, EvalStatus.loading⟩ =
      (⟨true, EvalStatus.loading⟩ : AppState) ∧
    (handleCloseEvaluate ⟨true, EvalStatus.loading⟩).isEvaluateOpen = true ∧
    cancelButtonDisabled ⟨true, EvalStatus.loading⟩ = true ∧
    runButtonDisabled ⟨true, EvalStatus.loading⟩ = true :=
  modal_locked_while_loading ⟨true, EvalStatus.loading⟩ rfl

/-- C6: with no vision provider configured, a scanned page's extraction
results in `OCRUnavailable` with the cache unchanged; moreover no cache
entry is ever written on a failed OCR attempt — the cache is written only
after a successful transcription. -/
theorem ocr_unavailable_no_cache_write (env : ExtractorEnv) (c : OCRCache)
    (p : String) (n : Nat) :
    (env.provider_configured = false →
      is_scanned_pdf (env.nativeText p n) = true →
      lookup c (get_page_hash p n) = none →
      extract_text_hybrid env c p n = ⟨.error .OCRUnavailable, c, 0⟩) ∧
    (∀ e, (extract_text_hybrid env c p n).result = .error e →
      (extract_text_hybrid env c p n).cache = c) := by
  constructor
  · intro hprov hs hl
    simp [extract_text_hybrid, llm_ocr_page, hs, hl, hprov]
  · intro e
    unfold extract_text_hybrid
    by_cases hs : is_scanned_pdf (env.nativeText p n)
    · simp only [if_pos hs]
      cases hl : lookup c (get_page_hash p n) with
      | some x => intro _; rfl
      | none =>
          cases ho : llm_ocr_page env p n with
          | mk r k =>
              cases r with
              | ok t => intro hres; simp at hres
              | error e2 => intro _; rfl
    · simp only [if_neg hs]
      intro hres
      simp at hres

/-- Concrete environment with no vision provider configured and a page
without a native text layer. -/
def envNoProvider : ExtractorEnv :=
  ⟨fun _ _ => "", fun _ _ => none, false, ""⟩

/-- C6 witness: requesting a scanned page with no provider configured
yields `OCRUnavailable` and writes nothing to the empty cache. -/
theorem ocr_unavailable_no_cache_write_witness :
    extract_text_hybrid envNoProvider [] "doc.pdf" 1 =
      ⟨.error .OCRUnavailable, [], 0⟩ :=
  (ocr_unavailable_no_cache_write envNoProvider [] "doc.pdf" 1).1
    rfl (by decide) rfl

/-- C1: after one successful OCR of a scanned page, every later extraction
request for the identical (document, page) — after any interleaved sequence
of other requests against the persistent cache, hence also across process
restarts — performs zero additional vision OCR invocations and returns the
cached text. -/
theorem ocr_at_most_once (env : ExtractorEnv) (c : OCRCache) (p : String)
    (n : Nat) (t : String) (rs : List (String × Nat))
    (hok : (extract_text_hybrid env c p n).result = .ok t)
    (hcalls : (extract_text_hybrid env c p n).ocr_calls = 1) :
    extract_text_hybrid env (runTrace env (extract_text_hybrid env c p n).cache rs) p n =
      ⟨.ok t, runTrace env (extract_text_hybrid env c p n).cache rs, 0⟩ := by
  by_cases hs : is_scanned_pdf (env.nativeText p n)
  · cases hl : lookup c (get_page_hash p n) with
    | some x => simp [extract_text_hybrid, hs, hl] at hcalls
    | none =>
        cases ho : llm_ocr_page env p n with
        | mk r k =>
            cases r with
            | error e2 => simp [extract_text_hybrid, hs, hl, ho] at hok
            | ok t2 =>
                have ht : t2 = t := by
                  simpa [extract_text_hybrid, hs, hl, ho] using hok
                subst ht
                have hc1 : (extract_text_hybrid env c p n).cache =
                    store c ⟨get_page_hash p n, p, n, t2, env.model_used⟩ := by
                  simp [extract_text_hybrid, hs, hl, ho]
                have h1 : lookup (store c ⟨get_page_hash p n, p, n, t2, env.model_used⟩)
                    (get_page_hash p n) =
                    some ⟨get_page_hash p n, p, n, t2, env.model_used⟩ :=
                  lookup_store_self c ⟨get_page_hash p n, p, n, t2, env.model_used⟩ hl
                rw [hc1]
                have h2 := lookup_runTrace_of_some env
                  (store c ⟨get_page_hash p n, p, n, t2, env.model_used⟩) rs
                  ⟨get_page_hash p n, p, n, t2, env.model_used⟩
                  (get_page_hash p n) h1
                simp [extract_text_hybrid, hs, h2]
  · simp [extract_text_hybrid, hs] at hcalls

/-- Concrete environment with a configured vision provider and a scanned
single-page document. -/
def envWithProvider : ExtractorEnv :=
  ⟨fun _ _ => "", fun _ _ => some "Team Management approach: example", true,
   "gpt-4o"⟩

/-- C1 witness: the first extraction OCRs and caches the page; repeating
the identical request afterwards performs zero vision invocations and
returns the cached text. -/
theorem ocr_at_most_once_witness :
    extract_text_hybrid envWithProvider
        (runTrace envWithProvider
          (extract_text_hybrid envWithProvider [] "doc.pdf" 1).cache
          [("doc.pdf", 1)]) "doc.pdf" 1 =
      ⟨.ok "Team Management approach: example",
       runTrace envWithProvider
         (extract_text_hybrid envWithProvider [] "doc.pdf" 1).cache
         [("doc.pdf", 1)], 0⟩ :=
  ocr_at_most_once envWithProvider [] "doc.pdf" 1
    "Team Management approach: example" [("doc.pdf", 1)]
    (by rfl) (by rfl)

theorem findPat_none_of_headerMatch_false (spec : SearchSpec) (p : String)
    (h : headerMatch spec p = false) :
    findPat (headerPatterns spec) (lowerL p.data) = none := by
  unfold headerMatch at h
  cases hf : findPat (headerPatterns spec) (lowerL p.data) with
  | none => rfl
  | some ik => rw [hf] at h; simp at h

theorem locateGo_none (pats : List (List Char)) (label : List Char)
    (pages : List String) (idx : Nat)
    (h : ∀ p ∈ pages, findPat pats (lowerL p.data) = none) :
    locateGo pats label pages idx = none := by
  induction pages generalizing idx with
  | nil => rfl
  | cons q rest ih =>
      have hq := h q (List.mem_cons_self q rest)
      simp only [locateGo, hq]
      exact ih (idx + 1) (fun p hp => h p (List.mem_cons_of_mem q hp))

/-- C3: `SectionLocator.locate` returns the `NotFound` outcome (`none`),
not an exception, whenever no page in the requested range contains a
matching header; and the frontend distinguishes this from a transport/OCR
error — a successful extract-answer response without a paragraph yields
the fixed "No matching section found in PDF." message, while a non-ok
response surfaces the server's error detail instead. -/
theorem locate_notfound_distinguished :
    (∀ (pages : List String) (spec : SearchSpec),
      (∀ p ∈ pages, headerMatch spec p = false) → locate pages spec = none) ∧
    (∀ (db : DbLookupResponse) (ext : ExtractResponse),
      storedAnswer db = none → ext.ok = true → ext.paragraph = none →
      (fetchCriterionAnswer db ext).evaluateExtractError =
        "No matching section found in PDF.") ∧
    (∀ (db : DbLookupResponse) (ext : ExtractResponse) (d : String),
      storedAnswer db = none → ext.ok = false → ext.detail = some d →
      d ≠ "" → (fetchCriterionAnswer db ext).evaluateExtractError = d) := by
  refine ⟨?_, ?_, ?_⟩
  · intro pages spec h
    exact locateGo_none _ _ pages 1
      (fun p hp => findPat_none_of_headerMatch_false spec p (h p hp))
  · intro db ext h1 h2 h3
    simp [fetchCriterionAnswer, h1, h2, h3]
  · intro db ext d h1 h2 h3 h4
    simp [fetchCriterionAnswer, jsOr, h1, h2, h3, h4]

/-- C3 witness: the spec's own example — label "Criterion" against a page
containing only "Section 2" — yields `NotFound`; an ok response without a
paragraph yields the fixed message; a non-ok response yields its detail. -/
theorem locate_notfound_distinguished_witness :
    locate ["Section 2 only text"] ⟨"Criterion", true, "2"⟩ = none ∧
    (fetchCriterionAnswer ⟨true, none⟩
        ⟨true, none, none⟩).evaluateExtractError =
      "No matching section found in PDF." ∧
    (fetchCriterionAnswer ⟨true, none⟩
        ⟨false, some "OCR not available", none⟩).evaluateExtractError =
      "OCR not available" :=
  ⟨locate_notfound_distinguished.1 ["Section 2 only text"]
      ⟨"Criterion", true, "2"⟩ (by decide),
   locate_notfound_distinguished.2.1 ⟨true, none⟩ ⟨true, none, none⟩
      rfl rfl rfl,
   locate_notfound_distinguished.2.2 ⟨true, none⟩
      ⟨false, some "OCR not available", none⟩ "OCR not available"
      rfl rfl rfl (by decide)⟩

/-- C8: `fetchCriterionAnswer` short-circuits on a stored answer — when the
lookup returns an answer with non-empty text, the answer is set from the
database and neither the extract-answer POST nor a save is issued; and
extraction or saving happens only when no stored answer exists. -/
theorem fetch_short_circuit :
    (∀ (db : DbLookupResponse) (ext : ExtractResponse) (a : AnswerRow),
      db.ok = true → db.answer = some a → a.answer_text ≠ "" →
      fetchCriterionAnswer db ext = ⟨a.answer_text, "", false, false⟩) ∧
    (∀ (db : DbLookupResponse) (ext : ExtractResponse),
      (fetchCriterionAnswer db ext).extractPosted = true ∨
        (fetchCriterionAnswer db ext).savePosted = true →
      storedAnswer db = none) := by
  constructor
  · intro db ext a h1 h2 h3
    simp [fetchCriterionAnswer, storedAnswer, h1, h2, h3]
  · intro db ext h
    cases hsa : storedAnswer db with
    | none => rfl
    | some tx => simp [fetchCriterionAnswer, hsa] at h

/-- C8 witness: a stored non-empty answer is returned verbatim with no
extract POST and no save; a failed lookup means no stored answer. -/
theorem fetch_short_circuit_witness :
    fetchCriterionAnswer ⟨true, some ⟨"stored answer"⟩⟩
        ⟨true, none, some "fresh"⟩ =
      ⟨"stored answer", "", false, false⟩ ∧
    storedAnswer ⟨false, none⟩ = none :=
  ⟨fetch_short_circuit.1 ⟨true, some ⟨"stored answer"⟩⟩
      ⟨true, none, some "fresh"⟩ ⟨"stored answer"⟩ rfl rfl (by decide),
   fetch_short_circuit.2 ⟨false, none⟩ ⟨true, none, some "fresh"⟩
      (Or.inl (by decide))⟩

theorem matchAt_isSome (pats : List (List Char)) (s p : List Char)
    (hmem : p ∈ pats) (hp : p.isPrefixOf s = true) :
    (matchAt pats s).isSome = true := by
  induction pats with
  | nil => simp at hmem
  | cons q rest ih =>
      unfold matchAt
      rw [List.findSome?_cons]
      by_cases hq : q.isPrefixOf s
      · simp [hq]
      · rcases List.mem_cons.mp hmem with rfl | hmem2
        · rw [hp] at hq
          simp at hq
        · simp only [hq, Bool.false_eq_true, if_false]
          exact ih hmem2

theorem findPat_isSome_of_matchAt (pats : List (List Char)) (s : List Char)
    (h : (matchAt pats s).isSome = true) : (findPat pats s).isSome = true := by
  cases s with
  | nil =>
      unfold findPat
      cases hm : matchAt pats [] with
      | none => rw [hm] at h; simp at h
      | some k => simp
  | cons c rest =>
      unfold findPat
      cases hm : matchAt pats (c :: rest) with
      | none => rw [hm] at h; simp at h
      | some k => simp

theorem lowerL_space : lowerL [' '] = [' '] := by decide

theorem lowerL_dot_space : lowerL ['.', ' '] = ['.', ' '] := by decide

theorem toLower_space : Char.toLower ' ' = ' ' := by decide

theorem toLower_dot : Char.toLower '.' = '.' := by decide

theorem lowerL_cons (c : Char) (s : List Char) :
    lowerL (c :: s) = Char.toLower c :: lowerL s := rfl

theorem lowerL_append (a b : List Char) :
    lowerL (a ++ b) = lowerL a ++ lowerL b :=
  List.map_append Char.toLower a b

theorem header_both_orderings (label num t : String) :
    headerMatch ⟨label, true, num⟩ (label ++ " " ++ num ++ t) = true ∧
    headerMatch ⟨label, true, num⟩ (num ++ ". " ++ label ++ t) = true := by
  constructor
  · unfold headerMatch
    apply findPat_isSome_of_matchAt
    apply matchAt_isSome _ _ (lowerL label.data ++ ' ' :: lowerL num.data)
    · simp [headerPatterns]
    · rw [ List.isPrefixOf_iff_prefix]
      have hdata : lowerL (label ++ " " ++ num ++ t).data =
          (lowerL label.data ++ ' ' :: lowerL num.data) ++ lowerL t.data := by
        simp only [String.data_append, lowerL_append, lowerL_space,
          lowerL_cons, toLower_space, List.append_assoc,
          List.singleton_append]
      rw [hdata]
      exact List.prefix_append _ _
  · unfold headerMatch
    apply findPat_isSome_of_matchAt
    apply matchAt_isSome _ _
      (lowerL num.data ++ '.' :: ' ' :: lowerL label.data)
    · simp [headerPatterns]
    · rw [ List.isPrefixOf_iff_prefix]
      have hdata : lowerL (num ++ ". " ++ label ++ t).data =
          (lowerL num.data ++ '.' :: ' ' :: lowerL label.data) ++
            lowerL t.data := by
        simp only [String.data_append, lowerL_append, lowerL_dot_space,
          lowerL_cons, toLower_space, toLower_dot, List.append_assoc,
          List.cons_append, List.nil_append]
      rw [hdata]
      exact List.prefix_append _ _

/-- C5: the locator's case-insensitive header pattern matches both
orderings of label and number ("label number" and "number. label"), and in
the 3-page native scenario — page 2 containing "Criterion 2" followed by
"We use AES-256 encryption." and page 3 starting with "Criterion 3" —
`locate` for question "2" returns exactly "We use AES-256 encryption."
sourced from page 2: the paragraph starts after the first match in page
order and ends at the next recognized header. -/
theorem locator_pattern_and_scenario :
    (∀ label num t : String,
      headerMatch ⟨label, true, num⟩ (label ++ " " ++ num ++ t) = true ∧
      headerMatch ⟨label, true, num⟩ (num ++ ". " ++ label ++ t) = true) ∧
    locate ["Intro page", "Criterion 2\nWe use AES-256 encryption.",
        "Criterion 3\nSomething else"] ⟨"Criterion", true, "2"⟩ =
      some ⟨"We use AES-256 encryption.", 2⟩ :=
  ⟨header_both_orderings, by decide⟩

/-- C10 counterexample: digitless q_ids are not always ordered after all
numbered ones.  The q_id "zzz9007199254740991" contains the number
9007199254740991 (`Number.MAX_SAFE_INTEGER`), which ties with the sentinel
assigned to the digitless "abc"; the tie-break on the full q_id then puts
the digitless "abc" first, before a numbered q_id. -/
theorem review_sort_digitless_not_always_last :
    (sortedResults [⟨"zzz9007199254740991", "", "", none⟩,
        ⟨"abc", "", "", none⟩]).map AssessmentResult.q_id =
      ["abc", "zzz9007199254740991"] ∧
    firstNumber "zzz9007199254740991" = some 9007199254740991 ∧
    firstNumber "abc" = none :=
  ⟨by decide, by decide, by decide⟩

set_option maxRecDepth 10000 in
/-- C10 (amended): `ReviewPanel` lists assessment results sorted ascending
by the JavaScript `Number()` of the first numeric substring of q_id — an
IEEE-754 double, so digit runs above `2 ^ 53` are rounded to the nearest
representable value — with digitless q_ids assigned the sentinel
`Number.MAX_SAFE_INTEGER`, hence ordered after all q_ids whose first number
rounds below the sentinel but not after those rounding to it or above;
ties broken by lexicographic comparison of the full q_id; the displayed
list is a permutation of the input and the input list is not mutated.  The
concrete conjuncts exhibit the rounding: the distinct first numbers
9007199254740993 and 9007199254740992 round to the same double, so the two
q_ids tie and the tie-break orders them lexicographically. -/
theorem review_sort_perm_sorted :
    (∀ rs : List AssessmentResult,
      (sortedResults rs).Perm rs ∧
      List.Sorted resultOrder (sortedResults rs)) ∧
    sortKey ⟨"a9007199254740993", "", "", none⟩ =
      sortKey ⟨"b9007199254740992", "", "", none⟩ ∧
    (sortedResults [⟨"a9007199254740993", "", "", none⟩,
        ⟨"b9007199254740992", "", "", none⟩]).map AssessmentResult.q_id =
      ["a9007199254740993", "b9007199254740992"] :=
  ⟨fun rs =>
    ⟨List.perm_insertionSort resultOrder rs,
     List.sorted_insertionSort resultOrder rs⟩,
   by decide, by decide⟩

end TenderEval
